import Mathlib

/-!
A shallow embedding of the hydra-maester OAuth2Client reconciler
(`controllers/oauth2client_controller.go` and `api/v1alpha1/oauth2client_types.go`)
together with theorems checking the specification's claims against it.

Modelling conventions:
* Go pointers that can be nil become `Option`.
* Machine strings stay `String`; byte slices holding text stay `String`.
* The external HTTP registry is a parameter `httpDo : HttpRequest → Except String HttpResponse`;
  a `.error` outcome models a transport failure of `http.Client.Do`.
* JSON encoding of a request body is modelled by carrying the typed value itself;
  JSON decoding of a response body is modelled by `DecodeResult` carried in the
  response (`.ok v` means the body decoded to `v`, with `none` for JSON `null`;
  `.fail e` means `json.Decode` failed with error message `e`).
* The Kubernetes API server is modelled concretely as a `Cluster` value: `Get`
  is an association-list lookup, `Create` of a secret fails exactly when a
  secret of the same namespace and name exists (AlreadyExists), and the status
  update fails exactly when the object is gone.
* Every HTTP request issued is appended to a `trace`, so that theorems can
  speak about which registry calls an invocation performs.
-/

/-- `v1alpha1.OAuth2ClientJSON`: the registry's JSON client representation
(fields `client_id`, `client_secret`, `client_name`, `grant_types`,
`response_types`, `scope`). -/
structure OAuth2ClientJSON where
  ClientID : Option String
  Secret : Option String
  Name : String
  GrantTypes : List String
  ResponseTypes : List String
  Scope : String
deriving Repr, DecidableEq

/-- `v1alpha1.OAuth2ClientSpec`: the desired state of an OAuth2Client. -/
structure OAuth2ClientSpec where
  GrantTypes : List String
  ResponseTypes : List String
  Scope : String
deriving Repr, DecidableEq

/-- `v1alpha1.OAuth2ClientStatus`: the observed state (secret reference and
registry-assigned client id, both optional). -/
structure OAuth2ClientStatus where
  Secret : Option String
  ClientID : Option String
deriving Repr, DecidableEq

/-- `v1alpha1.OAuth2Client`: the custom resource, with its ObjectMeta reduced
to the name and namespace the controller uses. -/
structure OAuth2Client where
  Name : String
  Namespace : String
  Spec : OAuth2ClientSpec
  Status : OAuth2ClientStatus
deriving Repr, DecidableEq

/-- `OAuth2Client.ToOAuth2ClientJSON`: converts the resource into the registry
representation (name, grant types, response types, scope; no id, no secret). -/
def OAuth2Client.ToOAuth2ClientJSON (c : OAuth2Client) : OAuth2ClientJSON :=
  { ClientID := none
    Secret := none
    Name := c.Name
    GrantTypes := c.Spec.GrantTypes
    ResponseTypes := c.Spec.ResponseTypes
    Scope := c.Spec.Scope }

/-- One pass of the Go `path.Clean` element loop: drop empty and `.` segments,
let `..` cancel the preceding segment (kept literally when nothing can be
cancelled in a relative path, dropped at the root of a rooted path).
`acc` holds the processed segments in reverse. -/
def cleanSegsAux (rooted : Bool) : List String → List String → List String
  | acc, [] => acc.reverse
  | acc, s :: rest =>
    if s = "" || s = "." then
      cleanSegsAux rooted acc rest
    else if s = ".." then
      match acc with
      | [] => if rooted then cleanSegsAux rooted [] rest
              else cleanSegsAux rooted [".."] rest
      | t :: acc2 => if t = ".." then cleanSegsAux rooted (".." :: acc) rest
                     else cleanSegsAux rooted acc2 rest
    else
      cleanSegsAux rooted (s :: acc) rest

/-- Split a character list on `/` (the segments of a slash-separated path). -/
def splitSlashAux : List Char → List Char → List String
  | [], cur => [String.mk cur.reverse]
  | c :: rest, cur =>
    if c = '/' then String.mk cur.reverse :: splitSlashAux rest []
    else splitSlashAux rest (c :: cur)

/-- `/`-separated segments of a path string. -/
def splitSlash (p : String) : List String :=
  splitSlashAux p.data []

/-- Join path segments with `/`. -/
def joinSegs : List String → String
  | [] => ""
  | [s] => s
  | s :: rest => s ++ "/" ++ joinSegs rest

/-- Whether a path is rooted (begins with `/`). -/
def isRooted (p : String) : Bool :=
  match p.data with
  | '/' :: _ => true
  | _ => false

/-- Go `path.Clean`. -/
def pathClean (p : String) : String :=
  if p = "" then "." else
  let rooted := isRooted p
  let segs := cleanSegsAux rooted [] (splitSlash p)
  let joined := joinSegs segs
  if rooted then "/" ++ joined
  else if joined = "" then "." else joined

/-- Go `path.Join` restricted to two elements, as used by `newRequest`:
non-empty elements are joined with `/` and the result is cleaned. -/
def pathJoin (a b : String) : String :=
  if a ≠ "" then pathClean (a ++ "/" ++ b)
  else if b ≠ "" then pathClean b
  else ""

/-- `net/url.URL` reduced to the parts the controller uses; `HydraURL` is a
parsed absolute URL with a host and a rooted path. -/
structure URL where
  Scheme : String
  Host : String
  Path : String
deriving Repr, DecidableEq

/-- `url.URL.String()` for an absolute URL with a non-empty host and a rooted
path. -/
def URL.str (u : URL) : String :=
  u.Scheme ++ "://" ++ u.Host ++ u.Path

/-- Result of JSON-decoding a response body: `.ok v` when the body is valid
JSON decoding to `v` (`none` for JSON `null`), `.fail e` when `json.Decode`
returns error `e`. -/
inductive DecodeResult where
  | ok (v : Option OAuth2ClientJSON)
  | fail (e : String)
deriving Repr, DecidableEq

/-- `http.Request` reduced to what the controller sets: method, the URL
string, the (typed) JSON body, and the headers. -/
structure HttpRequest where
  Method : String
  URL : String
  Body : Option OAuth2ClientJSON
  Headers : List (String × String)
deriving Repr, DecidableEq

/-- `http.Response` reduced to what the controller reads: numeric status
code, status text, and the decode outcome of the body. -/
structure HttpResponse where
  StatusCode : Nat
  Status : String
  Body : DecodeResult
deriving Repr, DecidableEq

/-- `http.Header.Set`: replace any previous value of the key. -/
def headerSet (hs : List (String × String)) (k v : String) : List (String × String) :=
  (k, v) :: hs.filter (fun kv => kv.1 ≠ k)

/-- `http.Header.Get`: first value for the key, `""` when unset. -/
def headerGet (hs : List (String × String)) (k : String) : String :=
  match hs.find? (fun kv => kv.1 == k) with
  | some kv => kv.2
  | none => ""

/-- `apiv1.Secret` reduced to name, namespace and string data. -/
structure Secret where
  Name : String
  Namespace : String
  Data : List (String × String)
deriving Repr, DecidableEq

/-- The relevant objects held by the Kubernetes API server: the OAuth2Client
resources and the secrets. -/
structure Cluster where
  clients : List OAuth2Client
  secrets : List Secret
deriving Repr, DecidableEq

/-- `r.Get(ctx, namespacedName, &client)`: look the resource up by namespace
and name; `none` models the IsNotFound outcome. -/
def Cluster.getClient (cl : Cluster) (ns nm : String) : Option OAuth2Client :=
  cl.clients.find? (fun t => t.Namespace == ns && t.Name == nm)

/-- `r.Create(ctx, &clientSecret)`: fails with AlreadyExists exactly when a
secret of the same namespace and name is present. -/
def Cluster.createSecret (cl : Cluster) (s : Secret) : Except String Cluster :=
  match cl.secrets.find? (fun t => t.Namespace == s.Namespace && t.Name == s.Name) with
  | some _ => Except.error ("secrets \x22" ++ s.Name ++ "\x22 already exists")
  | none => Except.ok { cl with secrets := s :: cl.secrets }

/-- Replace the status of the client matching `c` by namespace and name
(the effect of a status-subresource update). -/
def replaceClient : List OAuth2Client → OAuth2Client → List OAuth2Client
  | [], _ => []
  | t :: r, c =>
    if t.Namespace == c.Namespace && t.Name == c.Name then
      { t with Status := c.Status } :: replaceClient r c
    else
      t :: replaceClient r c

/-- `r.Status().Update(ctx, client)`: store the new status of the named
resource; fails when the object is gone. -/
def Cluster.updateStatus (cl : Cluster) (c : OAuth2Client) : Except String Cluster :=
  match cl.clients.find? (fun t => t.Namespace == c.Namespace && t.Name == c.Name) with
  | some _ => Except.ok { cl with clients := replaceClient cl.clients c }
  | none => Except.error ("oauth2clients.hydra.ory.sh \x22" ++ c.Name ++ "\x22 not found")

/-- The mutable state the reconciler carries across calls: the `HydraURL`
field of `OAuth2ClientReconciler` (which `newRequest` writes to), the cluster
contents, and the trace of HTTP requests issued so far. -/
structure RState where
  HydraURL : URL
  cluster : Cluster
  trace : List HttpRequest
deriving Repr, DecidableEq

/-- `newRequest(method, relativePath, body)`: joins `HydraURL.Path` with the
relative path — writing the joined path back into `r.HydraURL.Path` exactly
as the source line `r.HydraURL.Path = path.Join(r.HydraURL.Path, relativePath)`
does — JSON-encodes the body when present, and sets `Content-Type` only when
a body is present and `Accept` always. -/
def newRequest (st : RState) (method relativePath : String) (body : Option OAuth2ClientJSON) :
    RState × HttpRequest :=
  let u : URL := { st.HydraURL with Path := pathJoin st.HydraURL.Path relativePath }
  let hs :=
    match body with
    | some _ => headerSet [] "Content-Type" "application/json"
    | none => []
  let hs2 := headerSet hs "Accept" "application/json"
  ({ st with HydraURL := u },
   { Method := method, URL := u.str, Body := body, Headers := hs2 })

/-- `do(req, v)`: perform the request and JSON-decode the response body into
`v`; the decode error is returned alongside the response, and every caller
checks that error before looking at the status code. -/
def doRequest (httpDo : HttpRequest → Except String HttpResponse)
    (st : RState) (req : HttpRequest) :
    RState × Except String (HttpResponse × Option OAuth2ClientJSON) :=
  let st2 := { st with trace := st.trace ++ [req] }
  match httpDo req with
  | Except.error e => (st2, Except.error e)
  | Except.ok resp =>
    match resp.Body with
    | DecodeResult.ok v => (st2, Except.ok (resp, v))
    | DecodeResult.fail e => (st2, Except.error e)

/-- `getOAuth2Client(id)`: GET of the id-relative path; 200 → (client, true),
404 → (nil, false), anything else → unexpected-status error naming method,
URL and status text. -/
def getOAuth2Client (httpDo : HttpRequest → Except String HttpResponse)
    (st : RState) (id : String) :
    RState × Except String (Option OAuth2ClientJSON × Bool) :=
  let p := newRequest st "GET" id none
  match doRequest httpDo p.1 p.2 with
  | (st2, Except.error e) => (st2, Except.error e)
  | (st2, Except.ok (resp, jsonClient)) =>
    if resp.StatusCode == 200 then (st2, Except.ok (jsonClient, true))
    else if resp.StatusCode == 404 then (st2, Except.ok (none, false))
    else
      (st2, Except.error (p.2.Method ++ " " ++ p.2.URL ++
        " http request returned unexpected status code " ++ resp.Status))

/-- `postOAuth2Client(c)`: POST of the desired representation to the base
path; 201 → created record, 409 → "requested ID already exists" error,
anything else → unexpected-status error. -/
def postOAuth2Client (httpDo : HttpRequest → Except String HttpResponse)
    (st : RState) (c : OAuth2ClientJSON) :
    RState × Except String (Option OAuth2ClientJSON) :=
  let p := newRequest st "POST" "" (some c)
  match doRequest httpDo p.1 p.2 with
  | (st2, Except.error e) => (st2, Except.error e)
  | (st2, Except.ok (resp, jsonClient)) =>
    if resp.StatusCode == 201 then (st2, Except.ok jsonClient)
    else if resp.StatusCode == 409 then
      (st2, Except.error (" " ++ p.2.Method ++ " " ++ p.2.URL ++
        " http request failed: requested ID already exists"))
    else
      (st2, Except.error (p.2.Method ++ " " ++ p.2.URL ++
        " http request returned unexpected status code: " ++ resp.Status))

/-- `registerOAuth2Client(ctx, client)`: create the registry record, persist
the returned secret as a Kubernetes secret named after the resource, then
record secret name and client id in the status. Go dereferences
`created.Secret` unconditionally; a nil pointer there is modelled as a
distinguished error (in Go it would be a runtime panic). -/
def registerOAuth2Client (httpDo : HttpRequest → Except String HttpResponse)
    (st : RState) (client : OAuth2Client) :
    RState × Except String Unit :=
  match postOAuth2Client httpDo st client.ToOAuth2ClientJSON with
  | (st2, Except.error e) => (st2, Except.error e)
  | (st2, Except.ok created) =>
    match created with
    | none => (st2, Except.error "invalid memory address or nil pointer dereference")
    | some createdRec =>
      match createdRec.Secret with
      | none => (st2, Except.error "invalid memory address or nil pointer dereference")
      | some sec =>
        let clientSecret : Secret :=
          { Name := client.Name
            Namespace := client.Namespace
            Data := [("client_secret", sec)] }
        match st2.cluster.createSecret clientSecret with
        | Except.error e => (st2, Except.error e)
        | Except.ok cl2 =>
          let updated := { client with
            Status := { Secret := some clientSecret.Name, ClientID := createdRec.ClientID } }
          match (Cluster.updateStatus cl2 updated) with
          | Except.error e => ({ st2 with cluster := cl2 }, Except.error e)
          | Except.ok cl3 => ({ st2 with cluster := cl3 }, Except.ok ())

/-- `Reconcile(req)`: load the resource (absent → successful no-op); when the
status carries a client id, look it up in the registry (lookup error →
reconciliation error); when not registered, run registration. -/
def Reconcile (httpDo : HttpRequest → Except String HttpResponse)
    (st : RState) (ns nm : String) :
    RState × Except String Unit :=
  match st.cluster.getClient ns nm with
  | none => (st, Except.ok ())
  | some client =>
    match client.Status.ClientID with
    | some id =>
      (match getOAuth2Client httpDo st id with
       | (st2, Except.error e) => (st2, Except.error e)
       | (st2, Except.ok (_, registered)) =>
         if registered then (st2, Except.ok ())
         else registerOAuth2Client httpDo st2 client)
    | none => registerOAuth2Client httpDo st client

/-- Iterate `Reconcile` on the same resource identity, keeping the carried
state; `reconcileIter … n` is the state after `n` invocations. -/
def reconcileIter (httpDo : HttpRequest → Except String HttpResponse)
    (ns nm : String) (st : RState) : Nat → RState
  | 0 => st
  | n + 1 => (Reconcile httpDo (reconcileIter httpDo ns nm st n) ns nm).1

/-! ## Helper lemmas -/

theorem find_replaceClient (l : List OAuth2Client) (c : OAuth2Client) :
    (replaceClient l c).find? (fun t => t.Namespace == c.Namespace && t.Name == c.Name)
      = (l.find? (fun t => t.Namespace == c.Namespace && t.Name == c.Name)).map
          (fun t => { t with Status := c.Status }) := by
  induction l with
  | nil => rfl
  | cons a l ih =>
    by_cases h : (a.Namespace == c.Namespace && a.Name == c.Name) = true
    · simp [replaceClient, h, List.find?_cons_of_pos]
    · simp only [replaceClient]
      rw [if_neg h, List.find?_cons_of_neg _ (by simpa using h),
        List.find?_cons_of_neg _ (by simpa using h), ih]

/-! ## Claim theorems -/

/-- C6: if the resource identity is absent from the store at load time,
`Reconcile` returns success and leaves the whole state (registry trace,
secrets, statuses) untouched. -/
theorem reconcile_absent_resource_noop
    (httpDo : HttpRequest → Except String HttpResponse) (st : RState) (ns nm : String)
    (h : st.cluster.getClient ns nm = none) :
    Reconcile httpDo st ns nm = (st, Except.ok ()) := by
  unfold Reconcile
  rw [h]

def emptyRState : RState :=
  { HydraURL := { Scheme := "http", Host := "hydra", Path := "/clients" },
    cluster := { clients := [], secrets := [] },
    trace := [] }

/-- Witness for C6 at the empty cluster with an unreachable registry. -/
theorem reconcile_absent_resource_noop_witness :
    Reconcile (fun _ => Except.error "connection refused") emptyRState "default" "demo"
      = (emptyRState, Except.ok ()) :=
  reconcile_absent_resource_noop _ _ _ _ rfl

/-- C9: every request carries `Accept: application/json`; `Content-Type` is
`application/json` exactly when a body is present (and unset, i.e. `""` under
`Header.Get`, otherwise); the body sent is the JSON client representation
passed in. -/
theorem newRequest_headers_and_body
    (st : RState) (m p : String) (c : OAuth2ClientJSON) :
    headerGet (newRequest st m p none).2.Headers "Accept" = "application/json" ∧
    headerGet (newRequest st m p (some c)).2.Headers "Accept" = "application/json" ∧
    headerGet (newRequest st m p none).2.Headers "Content-Type" = "" ∧
    headerGet (newRequest st m p (some c)).2.Headers "Content-Type" = "application/json" ∧
    (newRequest st m p none).2.Body = none ∧
    (newRequest st m p (some c)).2.Body = some c :=
  ⟨rfl, rfl, rfl, rfl, rfl, rfl⟩

def demoJSON : OAuth2ClientJSON :=
  { ClientID := none, Secret := none, Name := "demo",
    GrantTypes := ["client_credentials"], ResponseTypes := [], Scope := "read write" }

/-- C8: the claim that request construction leaves the configured base
endpoint unchanged fails on the code: `newRequest` writes the joined path
back into `HydraURL.Path`, so after building a lookup request for `test-id`
the base has become `/clients/test-id`, and the next create request —
whose own relative path segment is empty — is addressed to
`/clients/test-id` instead of `/clients`. -/
theorem newRequest_mutates_base_url :
    emptyRState.HydraURL.Path = "/clients" ∧
    (newRequest emptyRState "GET" "test-id" none).1.HydraURL.Path = "/clients/test-id" ∧
    (newRequest (newRequest emptyRState "GET" "test-id" none).1 "POST" "" (some demoJSON)).2.URL
      = "http://hydra/clients/test-id" :=
  ⟨rfl, rfl, rfl⟩

/-- C10: `do` JSON-decodes the response body before the status code is
classified, so a 404 lookup response returns `(nil, false, nil)` only when
the body decodes; when decoding fails, the decode error is returned even
though the status is 404. -/
theorem lookup_decodes_before_status
    (httpDo : HttpRequest → Except String HttpResponse) (st : RState) (id : String)
    (resp : HttpResponse)
    (hdo : httpDo (newRequest st "GET" id none).2 = Except.ok resp)
    (h404 : resp.StatusCode = 404) :
    (∀ e, resp.Body = DecodeResult.fail e →
      (getOAuth2Client httpDo st id).2 = Except.error e) ∧
    (∀ v, resp.Body = DecodeResult.ok v →
      (getOAuth2Client httpDo st id).2 = Except.ok (none, false)) := by
  constructor
  · intro e he
    simp [getOAuth2Client, doRequest, hdo, he]
  · intro v hv
    simp [getOAuth2Client, doRequest, hdo, hv, h404]

/-- Witness for C10: a 404 whose body is not valid JSON makes the lookup
return the decode error, and the same 404 with a decodable body returns
`(none, false)` without error. -/
theorem lookup_decodes_before_status_witness :
    (getOAuth2Client
      (fun _ => Except.ok
        { StatusCode := 404, Status := "404 Not Found",
          Body := DecodeResult.fail "invalid character" })
      emptyRState "some-id").2 = Except.error "invalid character" :=
  (lookup_decodes_before_status _ emptyRState "some-id" _ rfl rfl).1 _ rfl

/-- C4 counterexample: a lookup answered with status 404 and a body that is
not valid JSON returns an error, contradicting the claim that a 404 outcome
is never an error. -/
theorem lookup_notfound_error_cex :
    (getOAuth2Client
      (fun _ => Except.ok
        { StatusCode := 404, Status := "404 Not Found",
          Body := DecodeResult.fail "invalid character" })
      emptyRState "lost-id").2 = Except.error "invalid character" := rfl

/-- C4 (amended): provided the response body JSON-decodes, `Lookup` maps the
status as claimed — 200 gives `(record, true, nil)`, 404 gives
`(nil, false, nil)` and is not an error, and any other status gives an error
naming the request method, the target URL and the status text. -/
theorem lookup_status_mapping
    (httpDo : HttpRequest → Except String HttpResponse) (st : RState) (id : String)
    (resp : HttpResponse) (v : Option OAuth2ClientJSON)
    (hdo : httpDo (newRequest st "GET" id none).2 = Except.ok resp)
    (hbody : resp.Body = DecodeResult.ok v) :
    (resp.StatusCode = 200 → (getOAuth2Client httpDo st id).2 = Except.ok (v, true)) ∧
    (resp.StatusCode = 404 → (getOAuth2Client httpDo st id).2 = Except.ok (none, false)) ∧
    (resp.StatusCode ≠ 200 → resp.StatusCode ≠ 404 →
      (getOAuth2Client httpDo st id).2 = Except.error
        ("GET" ++ " " ++ (newRequest st "GET" id none).2.URL ++
          " http request returned unexpected status code " ++ resp.Status)) := by
  refine ⟨fun h200 => ?_, fun h404 => ?_, fun h200 h404 => ?_⟩
  · simp [getOAuth2Client, doRequest, hdo, hbody, h200]
  · simp [getOAuth2Client, doRequest, hdo, hbody, h404]
  · have b200 : (resp.StatusCode == 200) = false := by simp [h200]
    have b404 : (resp.StatusCode == 404) = false := by simp [h404]
    simp only [getOAuth2Client, doRequest, hdo, hbody, b200, b404, Bool.false_eq_true,
      if_false]
    rfl

def resp500 : HttpResponse :=
  { StatusCode := 500, Status := "500 Internal Server Error",
    Body := DecodeResult.ok none }

/-- Witness for the amended C4 at a registry answering 500. -/
theorem lookup_status_mapping_witness :
    (getOAuth2Client (fun _ => Except.ok resp500) emptyRState "some-id").2
      = Except.error
          "GET http://hydra/clients/some-id http request returned unexpected status code 500 Internal Server Error" := by
  have h := lookup_status_mapping (fun _ => Except.ok resp500) emptyRState "some-id"
    resp500 none rfl rfl
  simpa using h.2.2 (by decide) (by decide)

/-- C5 (amended): provided the response body JSON-decodes, `Create` maps the
response status as the spec states — 201 returns the decoded registry record
without error; 409 returns the error
" POST {url} http request failed: requested ID already exists", whose text
contains "already exists"; any other status returns the generic
unexpected-status error — and on the 409 outcome a reconciliation of an
unregistered resource leaves the cluster (in particular the resource's
status) unchanged and surfaces the error. When the body fails to decode,
the decode error is returned regardless of status. -/
theorem create_status_mapping
    (httpDo : HttpRequest → Except String HttpResponse) (st : RState) (ns nm : String)
    (client : OAuth2Client) (resp : HttpResponse)
    (hdo : httpDo (newRequest st "POST" "" (some client.ToOAuth2ClientJSON)).2 = Except.ok resp)
    (hget : st.cluster.getClient ns nm = some client)
    (hcid : client.Status.ClientID = none) :
    (∀ e, resp.Body = DecodeResult.fail e →
      (postOAuth2Client httpDo st client.ToOAuth2ClientJSON).2 = Except.error e) ∧
    (∀ v, resp.Body = DecodeResult.ok v →
      (resp.StatusCode = 201 →
        (postOAuth2Client httpDo st client.ToOAuth2ClientJSON).2 = Except.ok v) ∧
      (resp.StatusCode = 409 →
        (postOAuth2Client httpDo st client.ToOAuth2ClientJSON).2 = Except.error
          (" " ++ "POST" ++ " " ++ (newRequest st "POST" "" (some client.ToOAuth2ClientJSON)).2.URL ++
            " http request failed: requested ID already exists")) ∧
      (resp.StatusCode ≠ 201 → resp.StatusCode ≠ 409 →
        (postOAuth2Client httpDo st client.ToOAuth2ClientJSON).2 = Except.error
          ("POST" ++ " " ++ (newRequest st "POST" "" (some client.ToOAuth2ClientJSON)).2.URL ++
            " http request returned unexpected status code: " ++ resp.Status)) ∧
      (resp.StatusCode = 409 →
        (Reconcile httpDo st ns nm).1.cluster = st.cluster ∧
        ∃ e, (Reconcile httpDo st ns nm).2 = Except.error e)) := by
  constructor
  · intro e he
    simp [postOAuth2Client, doRequest, hdo, he]
  · intro v hbody
    refine ⟨fun h201 => ?_, fun h409 => ?_, fun h201 h409 => ?_, fun h409 => ?_⟩
    · simp [postOAuth2Client, doRequest, hdo, hbody, h201]
    · simp only [postOAuth2Client, doRequest, hdo, hbody, h409]
      rfl
    · have b201 : (resp.StatusCode == 201) = false := by simp [h201]
      have b409 : (resp.StatusCode == 409) = false := by simp [h409]
      simp only [postOAuth2Client, doRequest, hdo, hbody, b201, b409, Bool.false_eq_true,
        if_false]
      rfl
    · have b201 : (resp.StatusCode == 201) = false := by simp [h409]
      simp only [Reconcile, hget, hcid, registerOAuth2Client, postOAuth2Client, doRequest,
        hdo, hbody, b201, h409, Bool.false_eq_true, if_false]
      exact ⟨rfl, _, rfl⟩

def demoClient : OAuth2Client :=
  { Name := "demo", Namespace := "default",
    Spec := { GrantTypes := ["client_credentials"], ResponseTypes := [], Scope := "read write" },
    Status := { Secret := none, ClientID := none } }

def demoRState : RState :=
  { HydraURL := { Scheme := "http", Host := "hydra", Path := "/clients" },
    cluster := { clients := [demoClient], secrets := [] },
    trace := [] }

def resp409 : HttpResponse :=
  { StatusCode := 409, Status := "409 Conflict", Body := DecodeResult.ok none }

def resp409bad : HttpResponse :=
  { StatusCode := 409, Status := "409 Conflict", Body := DecodeResult.fail "EOF" }

/-- C5 counterexample: a Create answered with status 409 and a body that is
not valid JSON (here an empty body, whose decode error is EOF) returns the
decode error, not an error containing "already exists" — `do` decodes the
body before the status switch, so the unconditional 409 mapping of the
claim fails. -/
theorem create_conflict_decode_error_cex :
    (postOAuth2Client (fun _ => Except.ok resp409bad)
      demoRState demoClient.ToOAuth2ClientJSON).2 = Except.error "EOF" :=
  rfl

/-- Witness for the amended C5: a conflicting registry answers 409 with a
decodable body; the create error carries "already exists" and
reconciliation leaves the cluster unchanged. -/
theorem create_status_mapping_witness :
    (postOAuth2Client (fun _ => Except.ok resp409) demoRState demoClient.ToOAuth2ClientJSON).2
      = Except.error
          " POST http://hydra/clients http request failed: requested ID already exists" ∧
    (Reconcile (fun _ => Except.ok resp409) demoRState "default" "demo").1.cluster
      = demoRState.cluster := by
  have h := (create_status_mapping (fun _ => Except.ok resp409) demoRState "default" "demo"
    demoClient resp409 rfl rfl rfl).2 none rfl
  exact ⟨by simpa using h.2.1 rfl, (h.2.2.2 rfl).1⟩

/-- C1: reconciling a resource whose status has no client id, against a
registry that accepts creation, issues exactly one registry request — a
Create carrying the resource's name, grant types, response types and scope —
creates a secret named after the resource in its namespace holding the
returned client secret under the key `client_secret`, and updates the status
to the secret name and the non-empty registry-assigned id. -/
theorem reconcile_unregistered_registers
    (httpDo : HttpRequest → Except String HttpResponse) (st : RState) (ns nm : String)
    (client : OAuth2Client) (rec : OAuth2ClientJSON) (id sec stxt : String)
    (hget : st.cluster.getClient ns nm = some client)
    (hcid : client.Status.ClientID = none)
    (hdo : httpDo (newRequest st "POST" "" (some client.ToOAuth2ClientJSON)).2
      = Except.ok { StatusCode := 201, Status := stxt, Body := DecodeResult.ok (some rec) })
    (hrid : rec.ClientID = some id)
    (hid : id ≠ "")
    (hrsec : rec.Secret = some sec)
    (hnosec : st.cluster.secrets.find?
      (fun t => t.Namespace == client.Namespace && t.Name == client.Name) = none) :
    (Reconcile httpDo st ns nm).2 = Except.ok () ∧
    (Reconcile httpDo st ns nm).1.trace
      = st.trace ++ [(newRequest st "POST" "" (some client.ToOAuth2ClientJSON)).2] ∧
    (newRequest st "POST" "" (some client.ToOAuth2ClientJSON)).2.Method = "POST" ∧
    (newRequest st "POST" "" (some client.ToOAuth2ClientJSON)).2.Body
      = some { ClientID := none, Secret := none, Name := client.Name,
               GrantTypes := client.Spec.GrantTypes,
               ResponseTypes := client.Spec.ResponseTypes, Scope := client.Spec.Scope } ∧
    (Reconcile httpDo st ns nm).1.cluster.secrets
      = { Name := client.Name, Namespace := client.Namespace,
          Data := [("client_secret", sec)] } :: st.cluster.secrets ∧
    (Reconcile httpDo st ns nm).1.cluster.getClient ns nm
      = some { client with Status := { Secret := some client.Name, ClientID := some id } } ∧
    id ≠ "" := by
  have hp := List.find?_some hget
  simp only [Bool.and_eq_true, beq_iff_eq] at hp
  obtain ⟨hns, hnm⟩ := hp
  subst hns
  subst hnm
  have hfind : List.find? (fun t => t.Namespace == client.Namespace && t.Name == client.Name)
      st.cluster.clients = some client := by
    simpa [Cluster.getClient] using hget
  simp [newRequest] at hdo
  simp [Reconcile, Cluster.getClient, hget, hfind, hcid, registerOAuth2Client,
    postOAuth2Client, doRequest, newRequest, hdo, hrid, hrsec, Cluster.createSecret,
    Cluster.updateStatus, hnosec, hid]
  refine ⟨rfl, ?_⟩
  have h2 := find_replaceClient st.cluster.clients
    { Name := client.Name, Namespace := client.Namespace, Spec := client.Spec,
      Status := { Secret := some client.Name, ClientID := some id } }
  simp [hfind] at h2
  exact h2

def createdRec : OAuth2ClientJSON :=
  { ClientID := some "abc123", Secret := some "s3cr3t", Name := "demo",
    GrantTypes := ["client_credentials"], ResponseTypes := [], Scope := "read write" }

def respCreated : HttpResponse :=
  { StatusCode := 201, Status := "201 Created", Body := DecodeResult.ok (some createdRec) }

/-- Witness for C1 at the spec's concrete scenario: resource demo, registry
answers 201 with id abc123 and secret s3cr3t. -/
theorem reconcile_unregistered_registers_witness :
    (Reconcile (fun _ => Except.ok respCreated) demoRState "default" "demo").2 = Except.ok () ∧
    (Reconcile (fun _ => Except.ok respCreated) demoRState "default" "demo").1.cluster.secrets
      = [{ Name := "demo", Namespace := "default", Data := [("client_secret", "s3cr3t")] }] ∧
    (Reconcile (fun _ => Except.ok respCreated) demoRState "default" "demo").1.cluster.getClient
        "default" "demo"
      = some { demoClient with Status := { Secret := some "demo", ClientID := some "abc123" } } := by
  have h := reconcile_unregistered_registers (fun _ => Except.ok respCreated) demoRState
    "default" "demo" demoClient createdRec "abc123" "s3cr3t" "201 Created"
    rfl rfl rfl rfl (by decide) rfl rfl
  exact ⟨h.1, by simpa using h.2.2.2.2.1, h.2.2.2.2.2.1⟩

/-- C7: when the registry Create succeeds but persisting the credential
secret fails (the name is already taken), the invocation returns that
persistence error, the cluster — in particular the resource's status, still
without secret reference or id — is unchanged, and the only registry call
made is the one Create: no compensating request follows. -/
theorem reconcile_secret_persist_failure
    (httpDo : HttpRequest → Except String HttpResponse) (st : RState) (ns nm : String)
    (client : OAuth2Client) (rec : OAuth2ClientJSON) (sec stxt : String) (t0 : Secret)
    (hget : st.cluster.getClient ns nm = some client)
    (hcid : client.Status.ClientID = none)
    (hdo : httpDo (newRequest st "POST" "" (some client.ToOAuth2ClientJSON)).2
      = Except.ok { StatusCode := 201, Status := stxt, Body := DecodeResult.ok (some rec) })
    (hrsec : rec.Secret = some sec)
    (hsec : st.cluster.secrets.find?
      (fun t => t.Namespace == client.Namespace && t.Name == client.Name) = some t0) :
    (Reconcile httpDo st ns nm).2
      = Except.error ("secrets \x22" ++ client.Name ++ "\x22 already exists") ∧
    (Reconcile httpDo st ns nm).1.cluster = st.cluster ∧
    (Reconcile httpDo st ns nm).1.trace
      = st.trace ++ [(newRequest st "POST" "" (some client.ToOAuth2ClientJSON)).2] ∧
    (newRequest st "POST" "" (some client.ToOAuth2ClientJSON)).2.Method = "POST" ∧
    (Reconcile httpDo st ns nm).1.cluster.getClient ns nm = some client := by
  have hp := List.find?_some hget
  simp only [Bool.and_eq_true, beq_iff_eq] at hp
  obtain ⟨hns, hnm⟩ := hp
  subst hns
  subst hnm
  have hfind : List.find? (fun t => t.Namespace == client.Namespace && t.Name == client.Name)
      st.cluster.clients = some client := by
    simpa [Cluster.getClient] using hget
  simp [newRequest] at hdo
  simp [Reconcile, Cluster.getClient, hget, hfind, hcid, registerOAuth2Client,
    postOAuth2Client, doRequest, newRequest, hdo, hrsec, Cluster.createSecret, hsec]

def takenSecret : Secret :=
  { Name := "demo", Namespace := "default", Data := [("client_secret", "other")] }

def takenRState : RState :=
  { HydraURL := { Scheme := "http", Host := "hydra", Path := "/clients" },
    cluster := { clients := [demoClient], secrets := [takenSecret] },
    trace := [] }

/-- Witness for C7: registry answers 201 but a secret named demo already
exists; the error is surfaced and the cluster is unchanged. -/
theorem reconcile_secret_persist_failure_witness :
    (Reconcile (fun _ => Except.ok respCreated) takenRState "default" "demo").2
      = Except.error "secrets \x22demo\x22 already exists" ∧
    (Reconcile (fun _ => Except.ok respCreated) takenRState "default" "demo").1.cluster
      = takenRState.cluster := by
  have h := reconcile_secret_persist_failure (fun _ => Except.ok respCreated) takenRState
    "default" "demo" demoClient createdRec "s3cr3t" "201 Created" takenSecret
    rfl rfl rfl rfl rfl
  exact ⟨by simpa using h.1, h.2.1⟩

def lostClient : OAuth2Client :=
  { demoClient with Status := { Secret := some "demo", ClientID := some "old-id" } }

def lostRState : RState :=
  { HydraURL := { Scheme := "http", Host := "hydra", Path := "/clients" },
    cluster := { clients := [lostClient], secrets := [] },
    trace := [] }

def resp404 : HttpResponse :=
  { StatusCode := 404, Status := "404 Not Found", Body := DecodeResult.ok none }

def httpDoLost : HttpRequest → Except String HttpResponse := fun req =>
  if req.Method == "GET" then Except.ok resp404 else Except.ok respCreated

/-- C3 counterexample: a resource whose status already carries the
identifier old-id, against a registry whose Lookup answers 404 and whose
Create answers 201 with id abc123, is re-registered by one invocation:
exactly one Create is issued and status.clientID is reassigned from old-id
to abc123 — refuting that no re-registration path exists. -/
theorem reconcile_reregisters_cex :
    ((Reconcile httpDoLost lostRState "default" "demo").1.trace.filter
      (fun q => q.Method == "POST")).length = 1 ∧
    ((Reconcile httpDoLost lostRState "default" "demo").1.cluster.getClient "default" "demo").map
      (fun c => c.Status.ClientID) = some (some "abc123") :=
  ⟨rfl, rfl⟩

/-- C3 (amended): once set, the identifier is not stable: when Lookup of the
recorded identifier returns found=false, the invocation re-registers — it
issues the lookup and then one Create carrying the desired representation,
succeeds, and overwrites status.clientID with the newly assigned
identifier (a re-registration path exists). -/
theorem reconcile_reregisters_on_lost_record
    (httpDo : HttpRequest → Except String HttpResponse) (st : RState) (ns nm : String)
    (client : OAuth2Client) (rec : OAuth2ClientJSON) (id0 id sec stxt4 stxt : String)
    (v0 : Option OAuth2ClientJSON)
    (hget : st.cluster.getClient ns nm = some client)
    (hcid : client.Status.ClientID = some id0)
    (hdoG : httpDo (newRequest st "GET" id0 none).2
      = Except.ok { StatusCode := 404, Status := stxt4, Body := DecodeResult.ok v0 })
    (hdoP : ∀ req, req.Method = "POST" →
      httpDo req
        = Except.ok { StatusCode := 201, Status := stxt, Body := DecodeResult.ok (some rec) })
    (hrid : rec.ClientID = some id)
    (hrsec : rec.Secret = some sec)
    (hnosec : st.cluster.secrets.find?
      (fun t => t.Namespace == client.Namespace && t.Name == client.Name) = none) :
    ∃ q1 q2, (Reconcile httpDo st ns nm).1.trace = st.trace ++ [q1, q2] ∧
      q1.Method = "GET" ∧ q2.Method = "POST" ∧
      q2.Body = some client.ToOAuth2ClientJSON ∧
      (Reconcile httpDo st ns nm).2 = Except.ok () ∧
      (Reconcile httpDo st ns nm).1.cluster.getClient ns nm
        = some { client with Status := { Secret := some client.Name, ClientID := some id } } := by
  have hp := List.find?_some hget
  simp only [Bool.and_eq_true, beq_iff_eq] at hp
  obtain ⟨hns, hnm⟩ := hp
  subst hns
  subst hnm
  have hfind : List.find? (fun t => t.Namespace == client.Namespace && t.Name == client.Name)
      st.cluster.clients = some client := by
    simpa [Cluster.getClient] using hget
  simp [newRequest] at hdoG
  simp [Reconcile, Cluster.getClient, hget, hfind, hcid, getOAuth2Client,
    registerOAuth2Client, postOAuth2Client, doRequest, newRequest, hdoG, hdoP,
    hrid, hrsec, Cluster.createSecret, Cluster.updateStatus, hnosec]
  refine ⟨_, _, ⟨rfl, rfl⟩, rfl, rfl, rfl, ?_⟩
  have h2 := find_replaceClient st.cluster.clients
    { Name := client.Name, Namespace := client.Namespace, Spec := client.Spec,
      Status := { Secret := some client.Name, ClientID := some id } }
  simp [hfind] at h2
  exact h2

/-- Witness for the amended C3 at the concrete lost-record scenario. -/
theorem reconcile_reregisters_on_lost_record_witness :
    ∃ q1 q2, (Reconcile httpDoLost lostRState "default" "demo").1.trace
        = lostRState.trace ++ [q1, q2] ∧
      q1.Method = "GET" ∧ q2.Method = "POST" ∧
      q2.Body = some lostClient.ToOAuth2ClientJSON ∧
      (Reconcile httpDoLost lostRState "default" "demo").2 = Except.ok () ∧
      (Reconcile httpDoLost lostRState "default" "demo").1.cluster.getClient "default" "demo"
        = some { lostClient with
            Status := { Secret := some lostClient.Name, ClientID := some "abc123" } } :=
  reconcile_reregisters_on_lost_record httpDoLost lostRState "default" "demo"
    lostClient createdRec "old-id" "abc123" "s3cr3t" "404 Not Found" "201 Created" none
    rfl rfl rfl (fun req h => by simp [httpDoLost, h, respCreated, createdRec]) rfl rfl rfl

theorem reconcile_found_noop_step
    (httpDo : HttpRequest → Except String HttpResponse) (st1 : RState) (ns nm : String)
    (client : OAuth2Client) (id0 : String) (resp : HttpResponse) (v : Option OAuth2ClientJSON)
    (hget : st1.cluster.getClient ns nm = some client)
    (hcid : client.Status.ClientID = some id0)
    (hdoG : ∀ req, req.Method = "GET" → httpDo req = Except.ok resp)
    (h200 : resp.StatusCode = 200)
    (hbody : resp.Body = DecodeResult.ok v) :
    (Reconcile httpDo st1 ns nm).2 = Except.ok () ∧
    (Reconcile httpDo st1 ns nm).1.cluster = st1.cluster ∧
    (Reconcile httpDo st1 ns nm).1.trace
      = st1.trace ++ [(newRequest st1 "GET" id0 none).2] := by
  simp [Reconcile, hget, hcid, getOAuth2Client, doRequest, newRequest, hdoG, hbody, h200]

/-- C2: when the status carries an identifier and every Lookup of it
succeeds with found=true, each of any number of repeated invocations
returns success, never changes the cluster (so the status's secret
reference and clientID stay as they were), and performs no Create call
(the count of POST requests in the trace never grows). -/
theorem reconcile_registered_idempotent
    (httpDo : HttpRequest → Except String HttpResponse) (st : RState) (ns nm : String)
    (client : OAuth2Client) (id0 : String) (resp : HttpResponse) (v : Option OAuth2ClientJSON)
    (hget : st.cluster.getClient ns nm = some client)
    (hcid : client.Status.ClientID = some id0)
    (hdoG : ∀ req, req.Method = "GET" → httpDo req = Except.ok resp)
    (h200 : resp.StatusCode = 200)
    (hbody : resp.Body = DecodeResult.ok v) :
    ∀ n, (Reconcile httpDo (reconcileIter httpDo ns nm st n) ns nm).2 = Except.ok () ∧
      (reconcileIter httpDo ns nm st n).cluster = st.cluster ∧
      List.countP (fun q => q.Method == "POST") (reconcileIter httpDo ns nm st n).trace
        = List.countP (fun q => q.Method == "POST") st.trace := by
  intro n
  induction n with
  | zero =>
    exact ⟨(reconcile_found_noop_step httpDo st ns nm client id0 resp v
      hget hcid hdoG h200 hbody).1, rfl, rfl⟩
  | succ n ih =>
    obtain ⟨hok, hcl, hcount⟩ := ih
    have hget2 : (reconcileIter httpDo ns nm st n).cluster.getClient ns nm = some client := by
      rw [hcl]; exact hget
    have hstep := reconcile_found_noop_step httpDo (reconcileIter httpDo ns nm st n) ns nm
      client id0 resp v hget2 hcid hdoG h200 hbody
    refine ⟨?_, ?_, ?_⟩
    · have hget3 : (reconcileIter httpDo ns nm st (n+1)).cluster.getClient ns nm
        = some client := by
        show ((Reconcile httpDo (reconcileIter httpDo ns nm st n) ns nm).1).cluster.getClient
          ns nm = some client
        rw [hstep.2.1]; exact hget2
      exact (reconcile_found_noop_step httpDo (reconcileIter httpDo ns nm st (n+1)) ns nm
        client id0 resp v hget3 hcid hdoG h200 hbody).1
    · show ((Reconcile httpDo (reconcileIter httpDo ns nm st n) ns nm).1).cluster = st.cluster
      rw [hstep.2.1, hcl]
    · show List.countP (fun q => q.Method == "POST")
        ((Reconcile httpDo (reconcileIter httpDo ns nm st n) ns nm).1).trace
        = List.countP (fun q => q.Method == "POST") st.trace
      rw [hstep.2.2, List.countP_append, ← hcount]
      simp [newRequest]

def respFound : HttpResponse :=
  { StatusCode := 200, Status := "200 OK", Body := DecodeResult.ok (some createdRec) }

/-- Witness for C2 after three repeated invocations against a registry whose
Lookup always finds the record. -/
theorem reconcile_registered_idempotent_witness :
    (Reconcile (fun _ => Except.ok respFound)
      (reconcileIter (fun _ => Except.ok respFound) "default" "demo" lostRState 3)
      "default" "demo").2 = Except.ok () ∧
    (reconcileIter (fun _ => Except.ok respFound) "default" "demo" lostRState 3).cluster
      = lostRState.cluster ∧
    List.countP (fun q => q.Method == "POST")
        (reconcileIter (fun _ => Except.ok respFound) "default" "demo" lostRState 3).trace
      = List.countP (fun q => q.Method == "POST") lostRState.trace :=
  reconcile_registered_idempotent (fun _ => Except.ok respFound) lostRState "default" "demo"
    lostClient "old-id" respFound (some createdRec) rfl rfl (fun _ _ => rfl) rfl rfl 3
